import Mathlib

/-!
Verification of the express-circuitbreaker core (src/src/status.ts): the
rolling-window statistics engine (`Status`) and the circuit-breaker state
machine / middleware (`CircuitBreakerMiddleware`).

The embedding is a shallow translation of the TypeScript source:
pure functions become Lean functions; the mutable objects become explicit
state passing; JavaScript numbers used as counters become `Nat`, latencies
become `Nat` (they are `Date.now()` differences), percentile points and the
error threshold become `ℚ` (exact rationals standing for the JS floats; all
values the claims touch are exactly representable); operations that throw a
`TypeError` at runtime (indexing `buckets[0]` on an empty array) return
`Option`, with `none` for the thrown exception.  Timers (`setTimeout` /
`setInterval` callbacks) are modelled as explicit events: an `xxxFire`
function applies the callback body, guarded by a boolean that models whether
the timer handle is outstanding.
-/

/-- One time slice of the rolling window (`type Bucket` in status.ts).
`percentiles` is the JS object `{ [key: number]: number }`, modelled as an
association list from the percentile point to its value. -/
structure Bucket where
  failures : Nat
  successes : Nat
  fires : Nat
  timeouts : Nat
  percentiles : List (ℚ × Nat)
  latencyTimes : List Nat
  isCircuitBreakerOpen : Bool
deriving Repr, DecidableEq

/-- `type Stats = Bucket & { latencyMean?: number }` in status.ts. -/
structure Stats extends Bucket where
  latencyMean : ℚ
deriving Repr, DecidableEq

/-- `Status.createBucket()`: a fresh empty bucket. -/
def createBucket : Bucket :=
  { failures := 0, successes := 0, fires := 0, timeouts := 0,
    percentiles := [], latencyTimes := [], isCircuitBreakerOpen := false }

/-- The `Status` class state: the bucket ring, the rolling window duration
(`timeout` field, ms), the percentile enablement flag, and whether the
rotation interval timer is outstanding (`rotationTimer`). -/
structure Status where
  buckets : List Bucket
  timeout : ℚ
  rollingPercentilesEnabled : Bool
  rotationActive : Bool
deriving Repr, DecidableEq

/-- The `Status` constructor: allocates `rollingCountBuckets` fresh buckets
(`Array.from({ length: n }, () => this.createBucket())`), stores the window
duration, resolves the percentile flag, and starts the rotation interval.
The source performs no validation of the options: construction never fails,
whatever the option values. -/
def Status.make (rollingCountBuckets : Nat) (rollingCountTimeout : ℚ)
    (rollingPercentilesEnabled : Bool) : Status :=
  { buckets := List.replicate rollingCountBuckets createBucket,
    timeout := rollingCountTimeout,
    rollingPercentilesEnabled := rollingPercentilesEnabled,
    rotationActive := true }

/-- One firing of the rotation interval body
(`this.buckets.pop(); this.buckets.unshift(this.createBucket())`).
`Array.pop` on an empty array is a no-op, as is `List.dropLast []`;
`unshift` always prepends. -/
def rotateStep (l : List Bucket) : List Bucket :=
  createBucket :: l.dropLast

/-- The rotation timer event on a `Status`: applies the interval body when
the rotation timer is outstanding. -/
def Status.rotationFire (s : Status) : Status :=
  if s.rotationActive then { s with buckets := rotateStep s.buckets } else s

/-- The counter fields of a bucket that `increment` may target
(`keyof Bucket` restricted to the counters the middleware uses). -/
inductive StatField where
  | failures
  | successes
  | fires
  | timeouts
deriving Repr, DecidableEq

/-- `currentBucket[property]++` for a counter field. -/
def Bucket.incrField (b : Bucket) : StatField → Bucket
  | StatField.failures => { b with failures := b.failures + 1 }
  | StatField.successes => { b with successes := b.successes + 1 }
  | StatField.fires => { b with fires := b.fires + 1 }
  | StatField.timeouts => { b with timeouts := b.timeouts + 1 }

/-- The body of `Status.increment` applied to the current bucket: bump the
counter, then push the latency sample when one was supplied. -/
def Bucket.applyIncrement (b : Bucket) (f : StatField) (lat : Option Nat) : Bucket :=
  let b2 := b.incrField f
  match lat with
  | none => b2
  | some t => { b2 with latencyTimes := b2.latencyTimes ++ [t] }

/-- `Status.increment(property, latencyRunTime?)`: mutates
`this.buckets[0]`.  When the bucket array is empty, `this.buckets[0]` is
`undefined` and the increment throws a `TypeError` at call time, modelled as
`none`. -/
def Status.increment (s : Status) (f : StatField) (lat : Option Nat) : Option Status :=
  match s.buckets with
  | [] => none
  | b :: rest => some { s with buckets := b.applyIncrement f lat :: rest }

/-- `Status.open()`: sets `this.buckets[0].isCircuitBreakerOpen = true`
(`none` models the `TypeError` on an empty bucket array). -/
def Status.markOpen (s : Status) : Option Status :=
  match s.buckets with
  | [] => none
  | b :: rest => some { s with buckets := { b with isCircuitBreakerOpen := true } :: rest }

/-- `Status.close()`: clears `this.buckets[0].isCircuitBreakerOpen`. -/
def Status.markClose (s : Status) : Option Status :=
  match s.buckets with
  | [] => none
  | b :: rest => some { s with buckets := { b with isCircuitBreakerOpen := false } :: rest }

/-- `Status.shutdown()`: `clearInterval(this.rotationTimer)` — the rotation
loop stops; nothing else changes. -/
def Status.shutdown (s : Status) : Status :=
  { s with rotationActive := false }

/-- The percentile points the stats getter reports
(`private percentiles: number[]` in status.ts). -/
def percentilesList : List ℚ :=
  [0, 1/4, 1/2, 3/4, 9/10, 19/20, 99/100, 199/200, 1]

/-- `Status.calculatePercentile(percentile, latencyTimes)`: nearest-rank
lookup over the (already sorted) sample array; `index = ceil(p * n) - 1`
with the `p <= 0` / `p >= 1` clamps of the source. -/
def calculatePercentile (p : ℚ) (lat : List Nat) : Nat :=
  if lat.length = 0 then 0
  else if p ≤ 0 then lat.headD 0
  else if 1 ≤ p then lat.getLastD 0
  else lat.getD (⌈p * (lat.length : ℚ)⌉ - 1).toNat 0

/-- Insert into a sorted list, keeping it sorted. -/
def insertSorted (x : Nat) : List Nat → List Nat
  | [] => [x]
  | y :: ys => if x ≤ y then x :: y :: ys else y :: insertSorted x ys

/-- The effect of `latencyTimes.sort((a, b) => a - b)`: the ascending
rearrangement of the samples (unique for numbers, so any sorting algorithm
models the JS sort extensionally). -/
def sortLatencies (l : List Nat) : List Nat :=
  l.foldr insertSorted []

/-- The seed of the stats reduction: `this.createBucket() as Stats`
(the `latencyMean` member is absent, i.e. not yet set; it is assigned before
the aggregate is returned, so seeding it with 0 is unobservable). -/
def emptyStats : Stats :=
  { toBucket := createBucket, latencyMean := 0 }

/-- The body of the reduce callback in the stats getter: accumulates the
four counters and concatenates the latency samples onto the accumulator.
The bucket itself is returned unchanged alongside the new accumulator —
the source writes only to `acc`. -/
def statsStep (acc : Stats) (b : Bucket) : Stats × Bucket :=
  ({ acc with
      failures := acc.failures + b.failures,
      successes := acc.successes + b.successes,
      fires := acc.fires + b.fires,
      timeouts := acc.timeouts + b.timeouts,
      latencyTimes := acc.latencyTimes ++ b.latencyTimes }, b)

/-- `this.buckets.reduce(...)` with the bucket array threaded through, so
that the (absence of) mutation of the buckets by a stats read is expressible. -/
def statsFold : Stats → List Bucket → Stats × List Bucket
  | acc, [] => (acc, [])
  | acc, b :: bs =>
    let ab := statsStep acc b
    let rb := statsFold ab.1 bs
    (rb.1, ab.2 :: rb.2)

/-- The `stats` getter of `Status`, returning the aggregate together with
the bucket array as the computation leaves it.  Aggregates the counters and
samples, sorts the concatenated samples, computes the mean (0 when there are
no samples), fills every configured percentile (via `calculatePercentile`
when enabled, with 0 when disabled), and finally mirrors
`this.buckets[0].isCircuitBreakerOpen` — reading `buckets[0]` of an empty
array throws, modelled as `none`. -/
def Status.statsRun (s : Status) : Option (Stats × List Bucket) :=
  let fb := statsFold emptyStats s.buckets
  let agg := fb.1
  let sorted := sortLatencies agg.latencyTimes
  let mean : ℚ :=
    if sorted.length > 0 then ((sorted.map (fun t => (t : ℚ))).sum) / (sorted.length : ℚ) else 0
  let ps :=
    if s.rollingPercentilesEnabled then
      percentilesList.map (fun p => (p, calculatePercentile p sorted))
    else
      percentilesList.map (fun p => (p, 0))
  match fb.2.head? with
  | none => none
  | some b0 =>
    some ({ agg with
             latencyTimes := sorted, latencyMean := mean, percentiles := ps,
             isCircuitBreakerOpen := b0.isCircuitBreakerOpen }, fb.2)

/-- The value of the `stats` getter (the aggregate snapshot alone). -/
def Status.statsOf (s : Status) : Option Stats :=
  (s.statsRun).map Prod.fst

/-- The discrete circuit state
(`"open" | "closed" | "half-open" | "shutdown"` in status.ts; `opened`
models the string `"open"`, `shutdownState` the string `"shutdown"`). -/
inductive CBState where
  | closed
  | opened
  | halfOpen
  | shutdownState
deriving Repr, DecidableEq

/-- The resolved circuit-breaker options the core reads after the defaults
merge (`CircuitBreakerOptions`): only the fields the modelled operations
consult.  Logging options and the error predicate (applied by the caller of
`invocationFinish` below) are collaborator concerns. -/
structure CBOptions where
  logOnly : Bool
  timeoutEnabled : Bool
  volumeThreshold : Nat
  errorThresholdPercentage : ℚ
  enabled : Bool
  allowWarmUp : Bool
  rollingCountBuckets : Nat
  rollingCountTimeout : ℚ
  rollingPercentilesEnabled : Bool
deriving Repr, DecidableEq

/-- The `CircuitBreakerMiddleware` instance state: the owned `Status`, the
resolved options, the discrete state, the warm-up flag, and whether the
reset / warm-up one-shot timers are outstanding. -/
structure CircuitBreakerMiddleware where
  status : Status
  options : CBOptions
  state : CBState
  warmUp : Bool
  resetTimerActive : Bool
  warmupTimerActive : Bool
deriving Repr, DecidableEq

/-- The `CircuitBreakerMiddleware` constructor: builds the `Status` from the
rolling-window options, starts in `closed`, arms the warm-up one-shot timer
(duration `rollingCountTimeout`) exactly when `allowWarmUp` is set.  Like
`Status`, it performs no validation of the options. -/
def CircuitBreakerMiddleware.make (o : CBOptions) : CircuitBreakerMiddleware :=
  { status := Status.make o.rollingCountBuckets o.rollingCountTimeout o.rollingPercentilesEnabled,
    options := o,
    state := CBState.closed,
    warmUp := o.allowWarmUp,
    resetTimerActive := false,
    warmupTimerActive := o.allowWarmUp }

/-- `errorRate > errorThresholdPercentage` with the JS evaluation of
`(stats.failures / stats.fires) * 100`: when `fires = 0` and
`failures > 0` the quotient is `Infinity` and the comparison is true; when
both are 0 it is `NaN` and the comparison is false; otherwise it is the
exact rational comparison. -/
def errorRateExceeds (failures fires : Nat) (threshold : ℚ) : Bool :=
  if fires = 0 then decide (failures ≠ 0)
  else decide ((failures : ℚ) / (fires : ℚ) * 100 > threshold)

/-- `CircuitBreakerMiddleware.open()` (named `openBreaker`; `open` is a Lean
keyword): on a genuine transition sets the state, marks the window open and
starts the reset timer (`startTimer`); a redundant call while already open
is a no-op. -/
def CircuitBreakerMiddleware.openBreaker (cb : CircuitBreakerMiddleware) :
    Option CircuitBreakerMiddleware :=
  if cb.state ≠ CBState.opened then
    match cb.status.markOpen with
    | none => none
    | some st =>
      some { cb with state := CBState.opened, status := st, resetTimerActive := true }
  else some cb

/-- `CircuitBreakerMiddleware.close()` (named `closeBreaker`): on a genuine
transition clears the reset timer, sets the state and marks the window
closed; a redundant call while already closed is a no-op. -/
def CircuitBreakerMiddleware.closeBreaker (cb : CircuitBreakerMiddleware) :
    Option CircuitBreakerMiddleware :=
  if cb.state ≠ CBState.closed then
    match cb.status.markClose with
    | none => none
    | some st =>
      some { cb with state := CBState.closed, status := st, resetTimerActive := false }
  else some cb

/-- `CircuitBreakerMiddleware.fail(err, args, latency)`: increments the
failure counter (no latency sample is recorded — the latency argument is
only logged), returns immediately while warm-up is active, then evaluates
the open-decision guard against the freshly read aggregate stats and calls
`open()` when it passes. -/
def CircuitBreakerMiddleware.fail (cb : CircuitBreakerMiddleware) :
    Option CircuitBreakerMiddleware :=
  match cb.status.increment StatField.failures none with
  | none => none
  | some st =>
    let cb2 := { cb with status := st }
    if cb2.warmUp then some cb2
    else
      match cb2.status.statsOf with
      | none => none
      | some stats =>
        if stats.fires < cb2.options.volumeThreshold ∧ ¬(cb2.state = CBState.halfOpen) then
          some cb2
        else if errorRateExceeds stats.failures stats.fires cb2.options.errorThresholdPercentage
            ∨ cb2.state = CBState.halfOpen then
          cb2.openBreaker
        else some cb2

/-- `CircuitBreakerMiddleware.success()`: increments the success counter
and, when the probe state is half-open, closes the circuit. -/
def CircuitBreakerMiddleware.success (cb : CircuitBreakerMiddleware) :
    Option CircuitBreakerMiddleware :=
  match cb.status.increment StatField.successes none with
  | none => none
  | some st =>
    let cb2 := { cb with status := st }
    if cb2.state = CBState.halfOpen then cb2.closeBreaker else some cb2

/-- `CircuitBreakerMiddleware.shutdown()`: sets the terminal state, clears
the reset and warm-up timers and stops the window rotation. -/
def CircuitBreakerMiddleware.shutdown (cb : CircuitBreakerMiddleware) :
    CircuitBreakerMiddleware :=
  { cb with state := CBState.shutdownState,
            resetTimerActive := false, warmupTimerActive := false,
            status := cb.status.shutdown }

/-- The reset timer firing (the `setTimeout` body of `startTimer`): moves
the breaker to half-open.  The one-shot timer fires only while outstanding. -/
def CircuitBreakerMiddleware.resetTimerFire (cb : CircuitBreakerMiddleware) :
    CircuitBreakerMiddleware :=
  if cb.resetTimerActive then
    { cb with state := CBState.halfOpen, resetTimerActive := false }
  else cb

/-- The warm-up timer firing (the `setTimeout` body in the constructor):
clears the warm-up flag. -/
def CircuitBreakerMiddleware.warmupTimerFire (cb : CircuitBreakerMiddleware) :
    CircuitBreakerMiddleware :=
  if cb.warmupTimerActive then
    { cb with warmUp := false, warmupTimerActive := false }
  else cb

/-- `this.status.increment("fires")` — the unconditional admission count at
the top of `middleware` (line 309). -/
def CircuitBreakerMiddleware.fire (cb : CircuitBreakerMiddleware) :
    Option CircuitBreakerMiddleware :=
  match cb.status.increment StatField.fires none with
  | none => none
  | some st => some { cb with status := st }

/-- The completion-deadline timer firing for an admitted invocation (the
`setTimeout` body at lines 322-327): records a timeout carrying the elapsed
latency, then reports a failure.  Nothing marks the invocation as already
timed out for the later completion handlers. -/
def invocationTimeoutFire (cb : CircuitBreakerMiddleware) (latency : Nat) :
    Option CircuitBreakerMiddleware :=
  match cb.status.increment StatField.timeouts (some latency) with
  | none => none
  | some st => CircuitBreakerMiddleware.fail { cb with status := st }

/-- The `finish` handler for an admitted invocation (lines 330-347):
`clearTimeout(timeoutId)` touches only the timer handle (a no-op on a timer
that already fired), then the outcome is classified by the error predicate
(`isErr` is the predicate's verdict on the response) and reported as failure
or success.  The handler runs unconditionally — it does not consult whether
the deadline timer already fired. -/
def invocationFinish (cb : CircuitBreakerMiddleware) (isErr : Bool) :
    Option CircuitBreakerMiddleware :=
  if isErr then cb.fail else cb.success

/-- The `close` (abrupt-termination) handler for an admitted invocation
(lines 349-354): cancels the timer handle and unconditionally reports a
failure, also without consulting whether the deadline already fired. -/
def invocationClose (cb : CircuitBreakerMiddleware) : Option CircuitBreakerMiddleware :=
  cb.fail

/-- An admitted invocation whose eventual outcome is reported through the
`finish` handler as a failure: the admission `fires` increment followed by
the failure report. -/
def recordFailureInvocation (cb : CircuitBreakerMiddleware) :
    Option CircuitBreakerMiddleware :=
  match cb.fire with
  | none => none
  | some cb2 => invocationFinish cb2 true

/-- An admitted invocation whose eventual outcome is reported through the
`finish` handler as a success. -/
def recordSuccessInvocation (cb : CircuitBreakerMiddleware) :
    Option CircuitBreakerMiddleware :=
  match cb.fire with
  | none => none
  | some cb2 => invocationFinish cb2 false

/-- The two observable outcomes of an admitted invocation. -/
inductive Outcome where
  | success
  | failure
deriving Repr, DecidableEq

/-- Apply one admitted invocation with the given outcome. -/
def applyOutcome (cb : CircuitBreakerMiddleware) : Outcome → Option CircuitBreakerMiddleware
  | Outcome.success => recordSuccessInvocation cb
  | Outcome.failure => recordFailureInvocation cb

/-- Apply a sequence of admitted invocations in order. -/
def applyTrace (cb : CircuitBreakerMiddleware) : List Outcome → Option CircuitBreakerMiddleware
  | [] => some cb
  | o :: os =>
    match applyOutcome cb o with
    | none => none
    | some cb2 => applyTrace cb2 os

/-- The resolved option record with the source's defaults and the three
parameters the state-machine claims vary: the volume threshold, the error
threshold percentage and the warm-up toggle. -/
def mkOptions (V : Nat) (θ : ℚ) (warm : Bool) : CBOptions :=
  { logOnly := false, timeoutEnabled := true, volumeThreshold := V,
    errorThresholdPercentage := θ, enabled := true, allowWarmUp := warm,
    rollingCountBuckets := 10, rollingCountTimeout := 10000,
    rollingPercentilesEnabled := true }

/-- A freshly constructed breaker with the default 10-bucket window. -/
def initCB (V : Nat) (θ : ℚ) (warm : Bool) : CircuitBreakerMiddleware :=
  CircuitBreakerMiddleware.make (mkOptions V θ warm)

/-- Shorthand for the failure count of a trace of admitted invocations. -/
def countF : List Outcome → Nat
  | [] => 0
  | Outcome.failure :: tr => countF tr + 1
  | Outcome.success :: tr => countF tr

/-- Shorthand for the success count of a trace of admitted invocations. -/
def countS : List Outcome → Nat
  | [] => 0
  | Outcome.failure :: tr => countS tr
  | Outcome.success :: tr => countS tr + 1

/-- A current bucket with the given counters, no latency samples and the
given breaker flag. -/
def bWith (f s k t : Nat) (flag : Bool) : Bucket :=
  { failures := f, successes := s, fires := k, timeouts := t,
    percentiles := [], latencyTimes := [], isCircuitBreakerOpen := flag }

/-- The canonical shape of a breaker reached from a fresh default 10-bucket
construction by admitted invocations only (no rotation): every increment has
landed in the current bucket, the other nine buckets are untouched. -/
def cbShape (o : CBOptions) (f s k : Nat) (flag : Bool) (st : CBState)
    (warm rta wta : Bool) : CircuitBreakerMiddleware :=
  { status := { buckets := bWith f s k 0 flag :: List.replicate 9 createBucket,
                timeout := o.rollingCountTimeout,
                rollingPercentilesEnabled := o.rollingPercentilesEnabled,
                rotationActive := true },
    options := o, state := st, warmUp := warm,
    resetTimerActive := rta, warmupTimerActive := wta }

/-- The breaker after `j` invocations all recorded as failures, starting
from a fresh construction with warm-up inactive: closed with clean flags
until the invocation count reaches `max volumeThreshold 1`, open with the
window marked and the reset timer armed from then on. -/
def cbAfterFails (o : CBOptions) (j : Nat) : CircuitBreakerMiddleware :=
  if j < max o.volumeThreshold 1 then
    cbShape o j 0 j false CBState.closed false false false
  else
    cbShape o j 0 j true CBState.opened false true false

/-- The aggregate snapshot of a freshly constructed (or empty) window. -/
def aggEmpty : Stats :=
  { failures := 0, successes := 0, fires := 0, timeouts := 0,
    percentiles := percentilesList.map (fun p => (p, 0)),
    latencyTimes := [], isCircuitBreakerOpen := false, latencyMean := 0 }

/-- A breaker sitting in the half-open probe state with a fresh window
(concrete instance used by the C5 witness). -/
def cbHalfOpenFresh : CircuitBreakerMiddleware :=
  { initCB 3 50 false with state := CBState.halfOpen }

/-- The bucket array is left untouched by the stats reduction: the reduce
callback writes only to its accumulator. -/
theorem statsFold_snd (a : Stats) (l : List Bucket) : (statsFold a l).2 = l := by
  induction l generalizing a with
  | nil => rfl
  | cons b bs ih => simp [statsFold, statsStep, ih]

/-- A stats read returns the bucket array it started from. -/
theorem statsRun_frame (s : Status) :
    ∀ agg bs, s.statsRun = some (agg, bs) → bs = s.buckets := by
  intro agg bs h
  simp only [Status.statsRun, statsFold_snd] at h
  cases hb : s.buckets with
  | nil => rw [hb] at h; simp at h
  | cons b rest =>
    rw [hb] at h
    simp only [List.head?] at h
    exact ((Prod.mk.injEq _ _ _ _).mp (Option.some.injEq _ _ ▸ h :)).2.symm

/-- C10: reading the aggregate snapshot never mutates any bucket — the
bucket array after a stats read is the array before it (same counters,
same latency-sample lists in the same order, same open flags), and a second
read on the resulting state returns the same aggregate. -/
theorem stats_read_pure (s : Status) (agg : Stats) (bs : List Bucket)
    (h : s.statsRun = some (agg, bs)) :
    bs = s.buckets ∧ Status.statsRun { s with buckets := bs } = some (agg, bs) := by
  have hb := statsRun_frame s agg bs h
  subst hb
  have he : ({ s with buckets := s.buckets } : Status) = s := rfl
  rw [he]
  exact ⟨rfl, h⟩

/-- Witness for C10 at a concrete one-bucket window. -/
theorem stats_read_pure_witness :
    [createBucket] = (Status.make 1 100 false).buckets ∧
      Status.statsRun { Status.make 1 100 false with buckets := [createBucket] } =
        some (aggEmpty, [createBucket]) :=
  stats_read_pure (Status.make 1 100 false) aggEmpty [createBucket] (by rfl)

/-- C1 (bug evidence): with a completion deadline configured, after the
deadline timer has fired for an admitted invocation (recording one timeout
and one failure and opening the circuit), a late completion signal for the
same invocation is processed again: the `finish` handler classifies the
response and increments the failure counter a second time (failures ends at
2, not 1) — nothing marks the invocation as already timed out, so the late
signal is not a statistics no-op as the claim requires. -/
theorem late_completion_double_counts :
    (((CircuitBreakerMiddleware.fire (initCB 0 50 false)).bind
        (fun cb => invocationTimeoutFire cb 5)).bind
        (fun cb => invocationFinish cb true)).map
      (fun cb => ((cb.status.buckets.headD createBucket).timeouts,
                  (cb.status.buckets.headD createBucket).failures,
                  (cb.status.buckets.headD createBucket).successes)) = some (1, 2, 0) := by
  have h1 : errorRateExceeds 1 1 50 = true := by simp [errorRateExceeds]; norm_num
  have h2 : errorRateExceeds 2 1 50 = true := by simp [errorRateExceeds]; norm_num
  simp [initCB, mkOptions, CircuitBreakerMiddleware.make, Status.make,
    CircuitBreakerMiddleware.fire, invocationTimeoutFire, invocationFinish,
    CircuitBreakerMiddleware.fail, CircuitBreakerMiddleware.openBreaker,
    Status.increment, Status.markOpen, Bucket.applyIncrement, Bucket.incrField,
    Status.statsOf, Status.statsRun, statsFold, statsStep, emptyStats, createBucket,
    sortLatencies, insertSorted, List.replicate, h1, h2, Option.bind]

/-- C2 (bug evidence): shutdown is not terminal in the code — an explicit
`open()` (and likewise an explicit `close()`) called after `shutdown()`
checks only that the state differs from its own target, so it moves the
state away from `shutdown`. -/
theorem shutdown_not_terminal :
    ((initCB 0 50 false).shutdown.openBreaker).map (fun cb => cb.state) = some CBState.opened
      ∧ ((initCB 0 50 false).shutdown.closeBreaker).map (fun cb => cb.state)
          = some CBState.closed := by
  constructor <;> rfl

/-- C3 (bug evidence): construction performs no validation — with
`rollingCountBuckets = 0` the `Status` constructor succeeds and yields an
empty bucket ring, and the invalid configuration surfaces only later, as a
call-time failure of `increment` and of the stats getter (both hit
`buckets[0]` of an empty array). -/
theorem invalid_config_not_fail_fast :
    (Status.make 0 10000 true).buckets = []
      ∧ Status.increment (Status.make 0 10000 true) StatField.failures none = none
      ∧ Status.statsOf (Status.make 0 10000 true) = none := ⟨rfl, rfl, rfl⟩

/-- In an ascending-sorted list the first element is a lower bound. -/
theorem sorted_head_min (l : List Nat) (h : List.Sorted (· ≤ ·) l) :
    ∀ x ∈ l, l.headD 0 ≤ x := by
  cases l with
  | nil => simp
  | cons a t =>
    intro x hx
    rcases List.mem_cons.mp hx with rfl | hxt
    · simp
    · simpa using (List.sorted_cons.mp h).1 x hxt

/-- In an ascending-sorted list the last element is an upper bound. -/
theorem sorted_le_getLastD : ∀ (l : List Nat) (d : Nat), List.Sorted (· ≤ ·) l →
    ∀ x ∈ l, x ≤ l.getLastD d := by
  intro l
  induction l with
  | nil => simp
  | cons a t ih =>
    intro d hs x hx
    rcases List.mem_cons.mp hx with rfl | hxt
    · cases t with
      | nil => simp [List.getLastD]
      | cons b t2 =>
        have hab : x ≤ b := (List.sorted_cons.mp hs).1 b (by simp)
        have hb := ih x (List.sorted_cons.mp hs).2 b (by simp)
        rw [List.getLastD_cons]
        exact le_trans hab hb
    · cases t with
      | nil => simp at hxt
      | cons b t2 =>
        rw [List.getLastD_cons]
        exact ih a (List.sorted_cons.mp hs).2 x hxt

/-- C6: each percentile over ascending-sorted samples is computed by nearest
rank — for `0 < p < 1` the sample at index `ceil(p*n) - 1`, for `p ≤ 0` the
first (minimum) sample, for `p ≥ 1` the last (maximum) sample; and the
concrete values the claim lists for `[50,100,150,200,250]` and `[300]`. -/
theorem percentile_nearest_rank :
    (∀ (p : ℚ) (l : List Nat), l ≠ [] → 0 < p → p < 1 →
        calculatePercentile p l = l.getD (⌈p * (l.length : ℚ)⌉ - 1).toNat 0)
  ∧ (∀ (p : ℚ) (l : List Nat), List.Sorted (· ≤ ·) l → l ≠ [] → p ≤ 0 →
        calculatePercentile p l = l.headD 0 ∧ ∀ x ∈ l, l.headD 0 ≤ x)
  ∧ (∀ (p : ℚ) (l : List Nat), List.Sorted (· ≤ ·) l → l ≠ [] → 1 ≤ p →
        calculatePercentile p l = l.getLastD 0 ∧ ∀ x ∈ l, x ≤ l.getLastD 0)
  ∧ calculatePercentile (1/4) [50, 100, 150, 200, 250] = 100
  ∧ calculatePercentile (1/2) [50, 100, 150, 200, 250] = 150
  ∧ calculatePercentile (3/4) [50, 100, 150, 200, 250] = 200
  ∧ calculatePercentile (19/20) [50, 100, 150, 200, 250] = 250
  ∧ calculatePercentile 0 [300] = 300
  ∧ calculatePercentile 1 [300] = 300 := by
  refine ⟨?_, ?_, ?_, ?_, ?_, ?_, ?_, ?_, ?_⟩
  · intro p l hl hp hp1
    have h0 : ¬(l.length = 0) := by simpa using hl
    rw [calculatePercentile, if_neg h0, if_neg (not_le.mpr hp), if_neg (not_le.mpr hp1)]
  · intro p l hs hl hp
    have h0 : ¬(l.length = 0) := by simpa using hl
    rw [calculatePercentile, if_neg h0, if_pos hp]
    exact ⟨rfl, sorted_head_min l hs⟩
  · intro p l hs hl hp
    have h0 : ¬(l.length = 0) := by simpa using hl
    have hnp : ¬(p ≤ 0) := not_le.mpr (lt_of_lt_of_le one_pos hp)
    rw [calculatePercentile, if_neg h0, if_neg hnp, if_pos hp]
    exact ⟨rfl, fun x hx => sorted_le_getLastD l 0 hs x hx⟩
  · have h : ⌈((4 : ℚ)⁻¹ * 5)⌉ = 2 := by rw [Int.ceil_eq_iff] ; norm_num
    simp [calculatePercentile, h]
    norm_num
  · have h : ⌈((2 : ℚ)⁻¹ * 5)⌉ = 3 := by rw [Int.ceil_eq_iff] ; norm_num
    simp [calculatePercentile, h]
    norm_num
  · have h : ⌈((3 : ℚ) / 4 * 5)⌉ = 4 := by rw [Int.ceil_eq_iff] ; norm_num
    simp [calculatePercentile, h]
    norm_num
  · have h : ⌈((19 : ℚ) / 20 * 5)⌉ = 5 := by rw [Int.ceil_eq_iff] ; norm_num
    simp [calculatePercentile, h]
  · rfl
  · rfl

/-- Witness for C6: the general clauses applied at `p = 1/2`, `p = 0` and
`p = 1` on the sorted sample list `[10, 20]`. -/
theorem percentile_nearest_rank_witness :
    (calculatePercentile (1/2) [10, 20]
        = [10, 20].getD (⌈(1/2 : ℚ) * (([10, 20] : List Nat).length : ℚ)⌉ - 1).toNat 0)
  ∧ (calculatePercentile 0 [10, 20] = [10, 20].headD 0
        ∧ ∀ x ∈ ([10, 20] : List Nat), [10, 20].headD 0 ≤ x)
  ∧ (calculatePercentile 1 [10, 20] = [10, 20].getLastD 0
        ∧ ∀ x ∈ ([10, 20] : List Nat), x ≤ [10, 20].getLastD 0) :=
  ⟨percentile_nearest_rank.1 (1/2) [10, 20] (by simp) (by norm_num) (by norm_num),
   percentile_nearest_rank.2.1 0 [10, 20] (by simp) (by simp) le_rfl,
   percentile_nearest_rank.2.2.1 1 [10, 20] (by simp) (by simp) le_rfl⟩

/-- C9: a rotation step keeps the length of a (nonempty) bucket sequence,
removes exactly the oldest bucket at the tail, and prepends exactly one
fresh bucket whose counters are zero and whose sample list is empty, so no
value recorded before the rotation appears in the new head bucket. -/
theorem rotation_step_spec (l : List Bucket) (h : l ≠ []) :
    (rotateStep l).length = l.length
      ∧ rotateStep l = createBucket :: l.dropLast
      ∧ l.dropLast ++ [l.getLast h] = l
      ∧ (rotateStep l).headD createBucket = createBucket
      ∧ (∀ x : Nat, x ∉ ((rotateStep l).headD createBucket).latencyTimes)
      ∧ createBucket.failures = 0 ∧ createBucket.successes = 0
      ∧ createBucket.fires = 0 ∧ createBucket.timeouts = 0
      ∧ createBucket.latencyTimes = [] := by
  refine ⟨?_, rfl, List.dropLast_append_getLast h, rfl, ?_, rfl, rfl, rfl, rfl, rfl⟩
  · have hl : l.length ≠ 0 := by simpa using h
    simp [rotateStep]
    omega
  · simp [rotateStep, createBucket]

/-- Witness for C9 on a singleton bucket sequence. -/
theorem rotation_step_spec_witness :
    (rotateStep [createBucket]).length = [createBucket].length
      ∧ rotateStep [createBucket] = createBucket :: [createBucket].dropLast
      ∧ [createBucket].dropLast ++ [[createBucket].getLast (by simp)] = [createBucket]
      ∧ (rotateStep [createBucket]).headD createBucket = createBucket
      ∧ (∀ x : Nat, x ∉ ((rotateStep [createBucket]).headD createBucket).latencyTimes)
      ∧ createBucket.failures = 0 ∧ createBucket.successes = 0
      ∧ createBucket.fires = 0 ∧ createBucket.timeouts = 0
      ∧ createBucket.latencyTimes = [] :=
  rotation_step_spec [createBucket] (by simp)

/-- Any status whose bucket ring is nonempty has an aggregate snapshot. -/
theorem statsOf_isSome (s : Status) (b : Bucket) (rest : List Bucket)
    (hb : s.buckets = b :: rest) : ∃ agg, s.statsOf = some agg := by
  simp [Status.statsOf, Status.statsRun, statsFold_snd, hb]

/-- C5 counterexample: a breaker constructed with warm-up enabled, opened
explicitly and moved to half-open by the reset timer still has the warm-up
flag active; a recorded failure in this half-open state is absorbed by the
warm-up early-return and does not transition to open, contradicting the
claim that a single recorded failure in half-open always opens. -/
theorem halfopen_fail_absorbed_during_warmup :
    ((((initCB 3 50 true).openBreaker).map CircuitBreakerMiddleware.resetTimerFire).bind
        CircuitBreakerMiddleware.fail).map (fun cb => cb.state) = some CBState.halfOpen
      ∧ (((initCB 3 50 true).openBreaker).map CircuitBreakerMiddleware.resetTimerFire).map
          (fun cb => (cb.state, cb.warmUp)) = some (CBState.halfOpen, true)
      ∧ some CBState.halfOpen ≠ some CBState.opened :=
  ⟨rfl, rfl, by simp⟩

/-- C5 (amended): in the half-open state, a single recorded success always
closes the circuit (no volume requirement), and a single recorded failure
opens it — bypassing the volume-threshold and error-rate guards — provided
the warm-up flag is inactive; while warm-up is active the failure is
absorbed and the state stays half-open. -/
theorem halfopen_single_signal_transitions (cb : CircuitBreakerMiddleware)
    (b : Bucket) (rest : List Bucket) (hb : cb.status.buckets = b :: rest)
    (hst : cb.state = CBState.halfOpen) :
    (∃ cb2, cb.success = some cb2 ∧ cb2.state = CBState.closed)
  ∧ (cb.warmUp = false → ∃ cb3, cb.fail = some cb3 ∧ cb3.state = CBState.opened)
  ∧ (cb.warmUp = true → ∃ cb4, cb.fail = some cb4 ∧ cb4.state = CBState.halfOpen) := by
  refine ⟨?_, ?_, ?_⟩
  · simp only [CircuitBreakerMiddleware.success, Status.increment, hb]
    simp only [hst]
    simp [CircuitBreakerMiddleware.closeBreaker, Status.markClose]
  · intro hw
    obtain ⟨agg, hagg⟩ := statsOf_isSome
      { cb.status with buckets := b.applyIncrement StatField.failures none :: rest }
      (b.applyIncrement StatField.failures none) rest rfl
    simp [CircuitBreakerMiddleware.fail, Status.increment, hb, hw, hst, hagg,
      CircuitBreakerMiddleware.openBreaker, Status.markOpen]
  · intro hw
    simp only [CircuitBreakerMiddleware.fail, Status.increment, hb]
    simp [hw, hst]

/-- Witness for C5 (amended) on a fresh half-open breaker. -/
theorem halfopen_single_signal_transitions_witness :
    (∃ cb2, cbHalfOpenFresh.success = some cb2 ∧ cb2.state = CBState.closed)
  ∧ (cbHalfOpenFresh.warmUp = false →
      ∃ cb3, cbHalfOpenFresh.fail = some cb3 ∧ cb3.state = CBState.opened)
  ∧ (cbHalfOpenFresh.warmUp = true →
      ∃ cb4, cbHalfOpenFresh.fail = some cb4 ∧ cb4.state = CBState.halfOpen) :=
  halfopen_single_signal_transitions cbHalfOpenFresh createBucket
    (List.replicate 9 createBucket) rfl rfl

/-- The aggregate snapshot of a window whose current bucket holds the given
counters and no latency samples, with nine untouched buckets behind it. -/
theorem statsOf_shapeL (f s k : Nat) (flag : Bool) (tmo : ℚ) (en rot : Bool) :
    Status.statsOf { buckets := Bucket.mk f s k 0 [] [] flag :: List.replicate 9 createBucket,
                     timeout := tmo, rollingPercentilesEnabled := en, rotationActive := rot }
      = some (Stats.mk (Bucket.mk f s k 0 (percentilesList.map (fun p => (p, 0))) [] flag) 0) := by
  by_cases h : en
  all_goals
    simp [Status.statsOf, Status.statsRun, statsFold, statsStep, emptyStats, createBucket,
      sortLatencies, List.replicate, h, calculatePercentile, percentilesList]

/-- The aggregate snapshot of a canonical breaker shape. -/
theorem statsOf_cbShape (o : CBOptions) (f s k : Nat) (flag : Bool) (st : CBState)
    (warm rta wta : Bool) :
    (cbShape o f s k flag st warm rta wta).status.statsOf
      = some (Stats.mk (Bucket.mk f s k 0 (percentilesList.map (fun p => (p, 0))) [] flag) 0) :=
  statsOf_shapeL f s k flag o.rollingCountTimeout o.rollingPercentilesEnabled true

/-- The admission `fires` increment on a canonical shape. -/
theorem fire_cbShape (o : CBOptions) (f s k : Nat) (flag : Bool) (st : CBState)
    (warm rta wta : Bool) :
    (cbShape o f s k flag st warm rta wta).fire
      = some (cbShape o f s (k+1) flag st warm rta wta) := rfl

/-- `fail` while warm-up is active: the failure is counted, nothing else
happens — in any state. -/
theorem fail_warm_cbShape (o : CBOptions) (f s k : Nat) (flag : Bool) (st : CBState)
    (rta wta : Bool) :
    (cbShape o f s k flag st true rta wta).fail
      = some (cbShape o (f+1) s k flag st true rta wta) := rfl

/-- `fail` below the volume threshold outside half-open: the guard returns
before evaluating the error rate. -/
theorem fail_below_cbShape (o : CBOptions) (f s k : Nat) (flag : Bool) (st : CBState)
    (rta wta : Bool) (hst : ¬(st = CBState.halfOpen)) (hk : k < o.volumeThreshold) :
    (cbShape o f s k flag st false rta wta).fail
      = some (cbShape o (f+1) s k flag st false rta wta) := by
  simp only [CircuitBreakerMiddleware.fail, cbShape, bWith, Status.increment,
    Bucket.applyIncrement, Bucket.incrField]
  simp only [statsOf_shapeL]
  simp [hst, hk]

/-- `fail` from closed with enough volume and an exceeded error rate: the
breaker opens, marks the window and starts the reset timer. -/
theorem fail_opens_cbShape (o : CBOptions) (f s k : Nat) (flag : Bool)
    (rta wta : Bool) (hk : ¬(k < o.volumeThreshold))
    (hr : errorRateExceeds (f+1) k o.errorThresholdPercentage = true) :
    (cbShape o f s k flag CBState.closed false rta wta).fail
      = some (cbShape o (f+1) s k true CBState.opened false true wta) := by
  simp only [CircuitBreakerMiddleware.fail, cbShape, bWith, Status.increment,
    Bucket.applyIncrement, Bucket.incrField]
  simp only [statsOf_shapeL]
  simp [hk, hr, CircuitBreakerMiddleware.openBreaker, Status.markOpen]

/-- `fail` from closed with enough volume but the error rate not exceeded:
only the failure is counted. -/
theorem fail_noopen_cbShape (o : CBOptions) (f s k : Nat) (flag : Bool)
    (rta wta : Bool) (hk : ¬(k < o.volumeThreshold))
    (hr : errorRateExceeds (f+1) k o.errorThresholdPercentage = false) :
    (cbShape o f s k flag CBState.closed false rta wta).fail
      = some (cbShape o (f+1) s k flag CBState.closed false rta wta) := by
  simp only [CircuitBreakerMiddleware.fail, cbShape, bWith, Status.increment,
    Bucket.applyIncrement, Bucket.incrField]
  simp only [statsOf_shapeL]
  simp [hk, hr]

/-- `fail` while already open: `open()` is a no-op, only the counter moves. -/
theorem fail_opened_cbShape (o : CBOptions) (f s k : Nat) (flag : Bool)
    (rta wta : Bool) :
    (cbShape o f s k flag CBState.opened false rta wta).fail
      = some (cbShape o (f+1) s k flag CBState.opened false rta wta) := by
  simp only [CircuitBreakerMiddleware.fail, cbShape, bWith, Status.increment,
    Bucket.applyIncrement, Bucket.incrField]
  simp only [statsOf_shapeL]
  by_cases hk : k < o.volumeThreshold
  · simp [hk]
  · simp [hk, CircuitBreakerMiddleware.openBreaker]

/-- `success` outside half-open: only the counter moves. -/
theorem success_cbShape (o : CBOptions) (f s k : Nat) (flag : Bool) (st : CBState)
    (warm rta wta : Bool) (hst : ¬(st = CBState.halfOpen)) :
    (cbShape o f s k flag st warm rta wta).success
      = some (cbShape o f (s+1) k flag st warm rta wta) := by
  simp only [CircuitBreakerMiddleware.success, cbShape, bWith, Status.increment,
    Bucket.applyIncrement, Bucket.incrField]
  simp [hst]

/-- A 100% failure rate exceeds any threshold below 100. -/
theorem errorRateExceeds_all_failures (m : Nat) (θ : ℚ) (hm : m ≠ 0) (hθ : θ < 100) :
    errorRateExceeds m m θ = true := by
  unfold errorRateExceeds
  rw [if_neg hm, decide_eq_true_eq]
  have hmq : ((m : ℚ)) ≠ 0 := by exact_mod_cast hm
  rw [div_self hmq, one_mul]
  exact hθ

/-- An admitted invocation recorded as a failure, below the volume
threshold and outside half-open. -/
theorem recordFailure_below (o : CBOptions) (f s k : Nat) (flag : Bool) (st : CBState)
    (rta wta : Bool) (hst : ¬(st = CBState.halfOpen)) (hk : k + 1 < o.volumeThreshold) :
    recordFailureInvocation (cbShape o f s k flag st false rta wta)
      = some (cbShape o (f+1) s (k+1) flag st false rta wta) := by
  simp only [recordFailureInvocation, fire_cbShape, invocationFinish, if_pos]
  exact fail_below_cbShape o f s (k+1) flag st rta wta hst hk

/-- An admitted invocation recorded as a failure that trips the breaker. -/
theorem recordFailure_opens (o : CBOptions) (f s k : Nat) (flag : Bool)
    (rta wta : Bool) (hk : ¬(k + 1 < o.volumeThreshold))
    (hr : errorRateExceeds (f+1) (k+1) o.errorThresholdPercentage = true) :
    recordFailureInvocation (cbShape o f s k flag CBState.closed false rta wta)
      = some (cbShape o (f+1) s (k+1) true CBState.opened false true wta) := by
  simp only [recordFailureInvocation, fire_cbShape, invocationFinish, if_pos]
  exact fail_opens_cbShape o f s (k+1) flag rta wta hk hr

/-- An admitted invocation recorded as a failure that passes the volume
check but not the rate check. -/
theorem recordFailure_noopen (o : CBOptions) (f s k : Nat) (flag : Bool)
    (rta wta : Bool) (hk : ¬(k + 1 < o.volumeThreshold))
    (hr : errorRateExceeds (f+1) (k+1) o.errorThresholdPercentage = false) :
    recordFailureInvocation (cbShape o f s k flag CBState.closed false rta wta)
      = some (cbShape o (f+1) s (k+1) flag CBState.closed false rta wta) := by
  simp only [recordFailureInvocation, fire_cbShape, invocationFinish, if_pos]
  exact fail_noopen_cbShape o f s (k+1) flag rta wta hk hr

/-- An admitted invocation recorded as a failure while already open. -/
theorem recordFailure_opened (o : CBOptions) (f s k : Nat) (flag : Bool)
    (rta wta : Bool) :
    recordFailureInvocation (cbShape o f s k flag CBState.opened false rta wta)
      = some (cbShape o (f+1) s (k+1) flag CBState.opened false rta wta) := by
  simp only [recordFailureInvocation, fire_cbShape, invocationFinish, if_pos]
  exact fail_opened_cbShape o f s (k+1) flag rta wta

/-- An admitted invocation recorded as a failure while warm-up is active. -/
theorem recordFailure_warm (o : CBOptions) (f s k : Nat) (flag : Bool) (st : CBState)
    (rta wta : Bool) :
    recordFailureInvocation (cbShape o f s k flag st true rta wta)
      = some (cbShape o (f+1) s (k+1) flag st true rta wta) := by
  simp only [recordFailureInvocation, fire_cbShape, invocationFinish, if_pos]
  exact fail_warm_cbShape o f s (k+1) flag st rta wta

/-- An admitted invocation recorded as a success outside half-open. -/
theorem recordSuccess_cbShape (o : CBOptions) (f s k : Nat) (flag : Bool) (st : CBState)
    (warm rta wta : Bool) (hst : ¬(st = CBState.halfOpen)) :
    recordSuccessInvocation (cbShape o f s k flag st warm rta wta)
      = some (cbShape o f (s+1) (k+1) flag st warm rta wta) := by
  simp only [recordSuccessInvocation, fire_cbShape, invocationFinish, if_neg]
  exact success_cbShape o f s (k+1) flag st warm rta wta hst

/-- Running failure invocations while the fires count stays strictly below
the volume threshold keeps the breaker in the closed canonical shape. -/
theorem runFails_below (o : CBOptions) : ∀ (n j : Nat), j + n < o.volumeThreshold →
    applyTrace (cbShape o j 0 j false CBState.closed false false false)
        (List.replicate n Outcome.failure)
      = some (cbShape o (j+n) 0 (j+n) false CBState.closed false false false) := by
  intro n
  induction n with
  | zero => intro j h; simp [applyTrace]
  | succ m ih =>
    intro j h
    rw [List.replicate_succ]
    simp only [applyTrace, applyOutcome]
    rw [recordFailure_below o j 0 j false CBState.closed false false (by simp) (by omega)]
    have hm := ih (j+1) (by omega)
    have e : j + 1 + m = j + (m + 1) := by omega
    rw [e] at hm
    exact hm

/-- Running failure invocations while warm-up is active keeps the breaker
closed whatever their number. -/
theorem runFails_warm (o : CBOptions) : ∀ (n j : Nat),
    applyTrace (cbShape o j 0 j false CBState.closed true false true)
        (List.replicate n Outcome.failure)
      = some (cbShape o (j+n) 0 (j+n) false CBState.closed true false true) := by
  intro n
  induction n with
  | zero => intro j; simp [applyTrace]
  | succ m ih =>
    intro j
    rw [List.replicate_succ]
    simp only [applyTrace, applyOutcome]
    rw [recordFailure_warm o j 0 j false CBState.closed false true]
    have hm := ih (j+1)
    have e : j + 1 + m = j + (m + 1) := by omega
    rw [e] at hm
    exact hm

/-- With warm-up inactive and a threshold below 100, a pure failure run
follows the `cbAfterFails` characterization: closed until the invocation
count reaches `max volumeThreshold 1`, open from then on. -/
theorem runFails_opens (o : CBOptions) (hθ : o.errorThresholdPercentage < 100) :
    ∀ (n j : Nat),
      applyTrace (cbAfterFails o j) (List.replicate n Outcome.failure)
        = some (cbAfterFails o (j+n)) := by
  intro n
  induction n with
  | zero => intro j; simp [applyTrace]
  | succ m ih =>
    intro j
    rw [List.replicate_succ]
    simp only [applyTrace, applyOutcome]
    have hstep : recordFailureInvocation (cbAfterFails o j) = some (cbAfterFails o (j+1)) := by
      by_cases h1 : j + 1 < max o.volumeThreshold 1
      · have hj : j < max o.volumeThreshold 1 := by omega
        have hv1 : 1 < o.volumeThreshold ∨ o.volumeThreshold ≤ 1 := by omega
        have hkv : j + 1 < o.volumeThreshold := by
          rcases hv1 with hv | hv
          · rwa [Nat.max_eq_left (by omega)] at h1
          · rw [Nat.max_eq_right hv] at h1; omega
        unfold cbAfterFails
        rw [if_pos hj, if_pos h1]
        exact recordFailure_below o j 0 j false CBState.closed false false (by simp) hkv
      · by_cases h2 : j < max o.volumeThreshold 1
        · have hkv : ¬(j + 1 < o.volumeThreshold) :=
            fun hc => h1 (lt_of_lt_of_le hc (le_max_left _ _))
          have hr := errorRateExceeds_all_failures (j+1) o.errorThresholdPercentage
            (by omega) hθ
          unfold cbAfterFails
          rw [if_pos h2, if_neg h1]
          exact recordFailure_opens o j 0 j false false false hkv hr
        · unfold cbAfterFails
          rw [if_neg h2, if_neg h1]
          exact recordFailure_opened o j 0 j true true false
    rw [hstep]
    have hm := ih (j+1)
    have e : j + 1 + m = j + (m + 1) := by omega
    rw [e] at hm
    exact hm

/-- C4: starting closed with warm-up inactive, any run of `n` recorded
failure invocations with `n < volumeThreshold` (so the aggregate fires
count stays strictly below the threshold throughout, at a 100% error rate)
leaves the breaker closed — and, when the error threshold is below 100%,
running failure invocations until the invocation count reaches
`volumeThreshold + 1` at a 100% failure rate leaves it open. -/
theorem volume_threshold_gate (V : Nat) (θ : ℚ) (n : Nat) (h : n < V) :
    (∃ cb, applyTrace (initCB V θ false) (List.replicate n Outcome.failure) = some cb
        ∧ cb.state = CBState.closed)
  ∧ (θ < 100 →
      ∃ cb, applyTrace (initCB V θ false) (List.replicate (V+1) Outcome.failure) = some cb
        ∧ cb.state = CBState.opened) := by
  have hinit : initCB V θ false
      = cbShape (mkOptions V θ false) 0 0 0 false CBState.closed false false false := rfl
  constructor
  · refine ⟨cbShape (mkOptions V θ false) n 0 n false CBState.closed false false false,
      ?_, rfl⟩
    rw [hinit]
    have hrun := runFails_below (mkOptions V θ false) n 0 (by simpa [mkOptions] using h)
    rw [Nat.zero_add] at hrun
    exact hrun
  · intro hθ
    have h0 : cbAfterFails (mkOptions V θ false) 0
        = cbShape (mkOptions V θ false) 0 0 0 false CBState.closed false false false := by
      unfold cbAfterFails
      rw [if_pos (Nat.lt_of_lt_of_le Nat.zero_lt_one (le_max_right _ _))]
    have hrun := runFails_opens (mkOptions V θ false) (by simpa [mkOptions] using hθ) (V+1) 0
    rw [h0, Nat.zero_add] at hrun
    have hne : ¬(V + 1 < max (mkOptions V θ false).volumeThreshold 1) := by
      simp [mkOptions]
    have hfin : cbAfterFails (mkOptions V θ false) (V+1)
        = cbShape (mkOptions V θ false) (V+1) 0 (V+1) true CBState.opened false true false := by
      unfold cbAfterFails
      rw [if_neg hne]
    rw [hfin] at hrun
    rw [hinit]
    exact ⟨_, hrun, rfl⟩

/-- Witness for C4 at `volumeThreshold = 3`, threshold 50%: two recorded
failures leave the breaker closed, four open it. -/
theorem volume_threshold_gate_witness :
    (∃ cb, applyTrace (initCB 3 50 false) (List.replicate 2 Outcome.failure) = some cb
        ∧ cb.state = CBState.closed)
  ∧ (∃ cb, applyTrace (initCB 3 50 false) (List.replicate 4 Outcome.failure) = some cb
        ∧ cb.state = CBState.opened) := by
  have h := volume_threshold_gate 3 50 2 (by omega)
  exact ⟨h.1, h.2 (by norm_num)⟩

/-- C7: while the warm-up flag is active, no number of recorded failure
invocations moves the breaker from closed to open; after the warm-up timer
fires, the same kind of failure pattern — any run long enough to satisfy
the volume threshold, at a 100% failure rate against a threshold below
100% — opens it. -/
theorem warmup_blocks_then_opens (V : Nat) (θ : ℚ) (n : Nat) :
    (∀ m : Nat, ∃ cb, applyTrace (initCB V θ true) (List.replicate m Outcome.failure) = some cb
        ∧ cb.state = CBState.closed)
  ∧ (θ < 100 → V ≤ n → 1 ≤ n →
      ∃ cb, applyTrace ((initCB V θ true).warmupTimerFire) (List.replicate n Outcome.failure)
          = some cb ∧ cb.state = CBState.opened) := by
  have hinit : initCB V θ true
      = cbShape (mkOptions V θ true) 0 0 0 false CBState.closed true false true := rfl
  constructor
  · intro m
    refine ⟨cbShape (mkOptions V θ true) m 0 m false CBState.closed true false true, ?_, rfl⟩
    rw [hinit]
    have hrun := runFails_warm (mkOptions V θ true) m 0
    rw [Nat.zero_add] at hrun
    exact hrun
  · intro hθ hV h1
    have hwf : (initCB V θ true).warmupTimerFire
        = cbShape (mkOptions V θ true) 0 0 0 false CBState.closed false false false := rfl
    have h0 : cbAfterFails (mkOptions V θ true) 0
        = cbShape (mkOptions V θ true) 0 0 0 false CBState.closed false false false := by
      unfold cbAfterFails
      rw [if_pos (Nat.lt_of_lt_of_le Nat.zero_lt_one (le_max_right _ _))]
    have hrun := runFails_opens (mkOptions V θ true) (by simpa [mkOptions] using hθ) n 0
    rw [h0, Nat.zero_add] at hrun
    have hne : ¬(n < max (mkOptions V θ true).volumeThreshold 1) := by
      simp [mkOptions]
      omega
    have hfin : cbAfterFails (mkOptions V θ true) n
        = cbShape (mkOptions V θ true) n 0 n true CBState.opened false true false := by
      unfold cbAfterFails
      rw [if_neg hne]
    rw [hfin] at hrun
    rw [hwf]
    exact ⟨_, hrun, rfl⟩

/-- Witness for C7 at `volumeThreshold = 1`, threshold 50%: five failures
during warm-up leave the breaker closed; after warm-up expiry two failures
open it. -/
theorem warmup_blocks_then_opens_witness :
    (∃ cb, applyTrace (initCB 1 50 true) (List.replicate 5 Outcome.failure) = some cb
        ∧ cb.state = CBState.closed)
  ∧ (∃ cb, applyTrace ((initCB 1 50 true).warmupTimerFire) (List.replicate 2 Outcome.failure)
        = some cb ∧ cb.state = CBState.opened) := by
  have h := warmup_blocks_then_opens 1 50 2
  exact ⟨h.1 5, h.2 (by norm_num) (by omega) (by omega)⟩

/-- A recorded failure invocation keeps the canonical shape, bumping the
failure and fires counters by one, and leaves the state closed or open. -/
theorem recordFailure_keeps_shape (o : CBOptions) (f s k : Nat) (flag : Bool) (st : CBState)
    (rta : Bool) (hst : st = CBState.closed ∨ st = CBState.opened) :
    ∃ flag2 st2 rta2, recordFailureInvocation (cbShape o f s k flag st false rta false)
        = some (cbShape o (f+1) s (k+1) flag2 st2 false rta2 false)
      ∧ (st2 = CBState.closed ∨ st2 = CBState.opened) := by
  rcases hst with rfl | rfl
  · by_cases hk : k + 1 < o.volumeThreshold
    · exact ⟨flag, CBState.closed, rta,
        recordFailure_below o f s k flag CBState.closed rta false (by simp) hk, Or.inl rfl⟩
    · cases hr : errorRateExceeds (f+1) (k+1) o.errorThresholdPercentage with
      | false => exact ⟨flag, CBState.closed, rta,
          recordFailure_noopen o f s k flag rta false hk hr, Or.inl rfl⟩
      | true => exact ⟨true, CBState.opened, true,
          recordFailure_opens o f s k flag rta false hk hr, Or.inr rfl⟩
  · exact ⟨flag, CBState.opened, rta, recordFailure_opened o f s k flag rta false, Or.inr rfl⟩

/-- Any trace of admitted invocations from a canonical closed-or-open shape
adds exactly its failure count, success count and length to the three
counters of the current bucket. -/
theorem runTrace_counts (o : CBOptions) : ∀ (tr : List Outcome) (f s k : Nat) (flag : Bool)
    (st : CBState) (rta : Bool), (st = CBState.closed ∨ st = CBState.opened) →
    ∃ flag2 st2 rta2, applyTrace (cbShape o f s k flag st false rta false) tr
        = some (cbShape o (f + countF tr) (s + countS tr) (k + tr.length) flag2 st2 false rta2 false)
      ∧ (st2 = CBState.closed ∨ st2 = CBState.opened) := by
  intro tr
  induction tr with
  | nil =>
    intro f s k flag st rta hst
    exact ⟨flag, st, rta, by simp [applyTrace, countF, countS], hst⟩
  | cons ev tr ih =>
    intro f s k flag st rta hst
    cases ev with
    | success =>
      have hne : ¬(st = CBState.halfOpen) := by rcases hst with rfl | rfl <;> simp
      have hstep := recordSuccess_cbShape o f s k flag st false rta false hne
      obtain ⟨flag2, st2, rta2, happ, hst2⟩ := ih f (s+1) (k+1) flag st rta hst
      refine ⟨flag2, st2, rta2, ?_, hst2⟩
      simp only [applyTrace, applyOutcome, hstep, happ, countF, countS, List.length_cons]
      have e1 : s + 1 + countS tr = s + (countS tr + 1) := by omega
      have e2 : k + 1 + tr.length = k + (tr.length + 1) := by omega
      rw [e1, e2]
    | failure =>
      obtain ⟨flagm, stm, rtam, hstep, hstm⟩ :=
        recordFailure_keeps_shape o f s k flag st rta hst
      obtain ⟨flag2, st2, rta2, happ, hst2⟩ := ih (f+1) s (k+1) flagm stm rtam hstm
      refine ⟨flag2, st2, rta2, ?_, hst2⟩
      simp only [applyTrace, applyOutcome, hstep, happ, countF, countS, List.length_cons]
      have e1 : f + 1 + countF tr = f + (countF tr + 1) := by omega
      have e2 : k + 1 + tr.length = k + (tr.length + 1) := by omega
      rw [e1, e2]

/-- C8: for every interleaving of admitted invocations recorded as
successes and failures landing in one unrotated window, the aggregate
snapshot reports `fires` equal to the number of invocations, `successes`
equal to the number recorded as successes and `failures` equal to the
number recorded as failures. -/
theorem snapshot_counts (tr : List Outcome) (V : Nat) (θ : ℚ) :
    ∃ cb agg, applyTrace (initCB V θ false) tr = some cb
      ∧ cb.status.statsOf = some agg
      ∧ agg.fires = tr.length ∧ agg.successes = countS tr ∧ agg.failures = countF tr := by
  have hinit : initCB V θ false
      = cbShape (mkOptions V θ false) 0 0 0 false CBState.closed false false false := rfl
  obtain ⟨flag2, st2, rta2, happ, hst2⟩ :=
    runTrace_counts (mkOptions V θ false) tr 0 0 0 false CBState.closed false (Or.inl rfl)
  rw [← hinit] at happ
  refine ⟨_, _, happ, statsOf_cbShape _ _ _ _ _ _ _ _ _, ?_, ?_, ?_⟩ <;> simp
